import Mathlib

/-!
Verification of the flood_mapper repository's core pipeline
(`flood_mapper/flood_detection.py`, `flood_mapper/utils.py`) against its
natural-language specification.

The Earth Engine raster algebra is shallowly embedded: an image is a
finite list of band names together with a per-band, per-pixel optional
rational value (`none` = masked pixel) and a footprint (the pixel set of
`image.geometry()` as seen by `reduceRegion`).  Backend reductions that
the repository treats as black boxes (histogram extraction over the Otsu
AOI, `connectedPixelCount`, the HydroSHEDS terrain slope, `pixelArea`)
enter as explicit function parameters.  Floating-point arithmetic is
modelled by exact rationals; note that with the `1e-10` padding the Otsu
denominators are provably positive, so the `NaN`/`inf` replacement steps
of the source are vacuous in this idealisation (rational division by
zero is total and returns 0, which coincides with the replacement).
-/

namespace FloodMapper

/-! ### List helpers: running sums, first arg-max, indexed access -/

/-- Inclusive running prefix sums starting from an accumulator
(the tail-recursive form of `np.cumsum`). -/
def cumsumFrom (acc : ℚ) : List ℚ → List ℚ
  | [] => []
  | x :: xs => (acc + x) :: cumsumFrom (acc + x) xs

/-- `np.cumsum`: inclusive running prefix sums. -/
def cumsum (l : List ℚ) : List ℚ := cumsumFrom 0 l

@[simp] theorem cumsumFrom_nil (acc : ℚ) : cumsumFrom acc [] = [] := rfl

@[simp] theorem cumsumFrom_cons (acc x : ℚ) (xs : List ℚ) :
    cumsumFrom acc (x :: xs) = (acc + x) :: cumsumFrom (acc + x) xs := rfl

theorem cumsumFrom_length (l : List ℚ) : ∀ acc, (cumsumFrom acc l).length = l.length := by
  induction l with
  | nil => intro acc; rfl
  | cons x xs ih => intro acc; simp [cumsumFrom, ih]

@[simp] theorem cumsum_length (l : List ℚ) : (cumsum l).length = l.length :=
  cumsumFrom_length l 0

theorem cumsumFrom_getD (l : List ℚ) :
    ∀ acc k, k < l.length →
      (cumsumFrom acc l).getD k 0 = acc + ∑ i ∈ Finset.range (k + 1), l.getD i 0 := by
  induction l with
  | nil => intro acc k hk; simp at hk
  | cons x xs ih =>
    intro acc k hk
    cases k with
    | zero => simp [cumsumFrom]
    | succ k =>
      have hk' : k < xs.length := by simpa using hk
      have := ih (acc + x) k hk'
      calc (cumsumFrom acc (x :: xs)).getD (k + 1) 0
          = (cumsumFrom (acc + x) xs).getD k 0 := by simp [cumsumFrom]
        _ = acc + x + ∑ i ∈ Finset.range (k + 1), xs.getD i 0 := this
        _ = acc + ∑ i ∈ Finset.range (k + 2), (x :: xs).getD i 0 := by
            rw [Finset.sum_range_succ' (fun i => (x :: xs).getD i 0) (k + 1)]
            simp only [List.getD_cons_succ, List.getD_cons_zero]
            ring

theorem cumsum_getD (l : List ℚ) (k : ℕ) (hk : k < l.length) :
    (cumsum l).getD k 0 = ∑ i ∈ Finset.range (k + 1), l.getD i 0 := by
  simpa using cumsumFrom_getD l 0 k hk

/-- `np.argmax`: index of the first occurrence of the maximum value (0 on `[]`). -/
def argmaxIdx : List ℚ → ℕ
  | [] => 0
  | [_] => 0
  | x :: y :: xs =>
    if x < (y :: xs).getD (argmaxIdx (y :: xs)) 0 then argmaxIdx (y :: xs) + 1 else 0

theorem argmaxIdx_lt_length : ∀ (l : List ℚ), l ≠ [] → argmaxIdx l < l.length := by
  intro l
  induction l with
  | nil => intro h; exact absurd rfl h
  | cons x xs ih =>
    intro _
    cases xs with
    | nil => simp [argmaxIdx]
    | cons y ys =>
      show (if x < (y :: ys).getD (argmaxIdx (y :: ys)) 0
          then argmaxIdx (y :: ys) + 1 else 0) < (x :: y :: ys).length
      by_cases h : x < (y :: ys).getD (argmaxIdx (y :: ys)) 0
      · have hm := ih (by simp)
        simp only [List.length_cons] at hm ⊢
        rw [if_pos h]
        omega
      · rw [if_neg h]
        simp

theorem argmaxIdx_is_max : ∀ (l : List ℚ) (j : ℕ), j < l.length →
    l.getD j 0 ≤ l.getD (argmaxIdx l) 0 := by
  intro l
  induction l with
  | nil => intro j hj; simp at hj
  | cons x xs ih =>
    intro j hj
    cases xs with
    | nil =>
      cases j with
      | zero => simp [argmaxIdx]
      | succ j => simp only [List.length_cons, List.length_nil] at hj; omega
    | cons y ys =>
      show (x :: y :: ys).getD j 0 ≤ (x :: y :: ys).getD
        (if x < (y :: ys).getD (argmaxIdx (y :: ys)) 0
          then argmaxIdx (y :: ys) + 1 else 0) 0
      by_cases h : x < (y :: ys).getD (argmaxIdx (y :: ys)) 0
      · rw [if_pos h]
        cases j with
        | zero => simpa using le_of_lt h
        | succ j =>
          have hj' : j < (y :: ys).length := by simpa using hj
          simpa using ih j hj'
      · rw [if_neg h]
        cases j with
        | zero => simp
        | succ j =>
          have hj' : j < (y :: ys).length := by simpa using hj
          have h1 := ih j hj'
          have h2 : (y :: ys).getD (argmaxIdx (y :: ys)) 0 ≤ x := le_of_not_lt h
          simpa using le_trans h1 h2

theorem argmaxIdx_eq_zero (l : List ℚ)
    (h : ∀ j, j < l.length → l.getD j 0 ≤ l.getD 0 0) : argmaxIdx l = 0 := by
  cases l with
  | nil => rfl
  | cons x xs =>
    cases xs with
    | nil => rfl
    | cons y ys =>
      have hlt : ¬ x < (y :: ys).getD (argmaxIdx (y :: ys)) 0 := by
        have hm : argmaxIdx (y :: ys) < (y :: ys).length :=
          argmaxIdx_lt_length (y :: ys) (by simp)
        have := h (argmaxIdx (y :: ys) + 1) (by simpa using hm)
        simp only [List.getD_cons_succ, List.getD_cons_zero] at this
        exact not_lt.mpr this
      show (if x < (y :: ys).getD (argmaxIdx (y :: ys)) 0
          then argmaxIdx (y :: ys) + 1 else 0) = 0
      rw [if_neg hlt]

theorem getD_map_div (l : List ℚ) (s : ℚ) :
    ∀ k, k < l.length → (l.map (fun c => c / s)).getD k 0 = l.getD k 0 / s := by
  induction l with
  | nil => intro k hk; simp at hk
  | cons x xs ih =>
    intro k hk
    cases k with
    | zero => simp
    | succ k => simpa using ih k (by simpa using hk)

theorem getD_zipWith (f : ℚ → ℚ → ℚ) :
    ∀ (a b : List ℚ) (k : ℕ), k < a.length → k < b.length →
      (List.zipWith f a b).getD k 0 = f (a.getD k 0) (b.getD k 0) := by
  intro a
  induction a with
  | nil => intro b k hk _; simp at hk
  | cons x xs ih =>
    intro b k hka hkb
    cases b with
    | nil => simp at hkb
    | cons y ys =>
      cases k with
      | zero => simp
      | succ k =>
        simpa using ih ys k (by simpa using hka) (by simpa using hkb)

theorem getLastD_eq_getD : ∀ (l : List ℚ), l ≠ [] → l.getLastD 0 = l.getD (l.length - 1) 0 := by
  intro l
  induction l with
  | nil => intro h; exact absurd rfl h
  | cons x xs ih =>
    intro _
    cases xs with
    | nil => rfl
    | cons y ys =>
      have := ih (by simp)
      simpa [List.getLastD_cons] using this

theorem sum_eq_sum_range_getD (l : List ℚ) :
    l.sum = ∑ i ∈ Finset.range l.length, l.getD i 0 := by
  induction l with
  | nil => simp
  | cons x xs ih =>
    simp only [List.length_cons]
    rw [Finset.sum_range_succ' (fun i => (x :: xs).getD i 0) xs.length]
    simp [ih, add_comm]

/-! ### Otsu threshold arithmetic (`compute_otsu_threshold`, lines 42-58)

The locals of the Python function become top-level definitions with the
source's names.  Lines 54-55 of the source replace `NaN`/`inf` entries of
`sigma_b_squared` by 0 before the argmax; in this exact-rational model the
only division is guarded by the `+ otsuEps` padding (and rational division
by zero returns 0 anyway), so those two lines are the identity here. -/

/-- The `1e-10` padding constant of line 51. -/
def otsuEps : ℚ := 1 / 10 ^ 10

/-- `probs = hist / np.sum(hist)` (line 46). -/
def otsuProbs (hist : List ℚ) : List ℚ := hist.map (fun c => c / hist.sum)

/-- `omega = np.cumsum(probs)` (line 47). -/
def otsuOmegaList (hist : List ℚ) : List ℚ := cumsum (otsuProbs hist)

/-- `mu = np.cumsum(probs * values)` (line 48). -/
def otsuMuList (hist values : List ℚ) : List ℚ :=
  cumsum (List.zipWith (fun p v => p * v) (otsuProbs hist) values)

/-- `mu_t = mu[-1]` (line 49). -/
def otsuMuT (hist values : List ℚ) : ℚ := (otsuMuList hist values).getLastD 0

/-- `sigma_b_squared = (mu_t * omega - mu) ** 2 / (omega * (1 - omega) + 1e-10)`
(line 51; the NaN/inf clean-up of lines 54-55 is vacuous here, see above). -/
def otsuSigmaList (hist values : List ℚ) : List ℚ :=
  List.zipWith (fun w m => (otsuMuT hist values * w - m) ^ 2 / (w * (1 - w) + otsuEps))
    (otsuOmegaList hist) (otsuMuList hist values)

/-- The histogram dictionary the backend's histogram reducer returns:
bucketed counts and bucket-mean values. -/
structure Histogram where
  histogram : List ℚ
  bucketMeans : List ℚ
deriving DecidableEq

/-- Lines 42-58 of `flood_detection.py`: the Otsu threshold computed from a
histogram, i.e. `values[np.argmax(sigma_b_squared)]`. -/
def computeOtsuFromHist (h : Histogram) : ℚ :=
  h.bucketMeans.getD (argmaxIdx (otsuSigmaList h.histogram h.bucketMeans)) 0

/-! Spec-side Otsu formulation (for the refinement comparison of claim C1).
These definitions follow the words of the specification, not the code:
`p_i = count_i / Σcount`, `ω_k = Σ_{i≤k} p_i`, `μ_k = Σ_{i≤k} p_i·value_i`,
`μ_T = μ_last`, `σ²_b(k) = (μ_T·ω_k − μ_k)² / (ω_k·(1−ω_k) + ε)`, and the
threshold is the bucket value at `argmax_k σ²_b(k)`. -/

/-- Modelled from the spec: cumulative weight `ω_k = Σ_{i≤k} p_i`. -/
def otsuOmega (hist : List ℚ) (k : ℕ) : ℚ :=
  ∑ i ∈ Finset.range (k + 1), hist.getD i 0 / hist.sum

/-- Modelled from the spec: cumulative mean `μ_k = Σ_{i≤k} p_i·value_i`. -/
def otsuMu (hist values : List ℚ) (k : ℕ) : ℚ :=
  ∑ i ∈ Finset.range (k + 1), (hist.getD i 0 / hist.sum) * values.getD i 0

/-- Modelled from the spec: between-class variance
`σ²_b(k) = (μ_T·ω_k − μ_k)² / (ω_k·(1−ω_k) + ε)` with `μ_T = μ_last`. -/
def otsuSigmaB (hist values : List ℚ) (k : ℕ) : ℚ :=
  (otsuMu hist values (hist.length - 1) * otsuOmega hist k - otsuMu hist values k) ^ 2 /
    (otsuOmega hist k * (1 - otsuOmega hist k) + otsuEps)

/-- Modelled from the spec: the bucket value at `argmax_k σ²_b(k)`. -/
def otsuSpecThreshold (hist values : List ℚ) : ℚ :=
  values.getD (argmaxIdx ((List.range hist.length).map (otsuSigmaB hist values))) 0

/-! Bridging lemmas between the code-side lists and the spec-side functions. -/

theorem otsuProbs_length (hist : List ℚ) : (otsuProbs hist).length = hist.length := by
  simp [otsuProbs]

theorem otsuOmegaList_length (hist : List ℚ) :
    (otsuOmegaList hist).length = hist.length := by
  simp [otsuOmegaList, otsuProbs]

theorem otsuMuList_length (hist values : List ℚ) :
    (otsuMuList hist values).length = min hist.length values.length := by
  simp [otsuMuList, otsuProbs]

theorem otsuOmegaList_getD (hist : List ℚ) (k : ℕ) (hk : k < hist.length) :
    (otsuOmegaList hist).getD k 0 = otsuOmega hist k := by
  rw [otsuOmegaList, cumsum_getD _ _ (by simpa [otsuProbs] using hk), otsuOmega]
  refine Finset.sum_congr rfl ?_
  intro i hi
  have hi' : i < hist.length := lt_of_lt_of_le (Finset.mem_range.mp hi) hk
  exact getD_map_div hist hist.sum i hi'

theorem otsuMuList_getD (hist values : List ℚ) (k : ℕ)
    (hk : k < hist.length) (hk' : k < values.length) :
    (otsuMuList hist values).getD k 0 = otsuMu hist values k := by
  rw [otsuMuList,
    cumsum_getD _ _ (by simp [otsuProbs]; omega), otsuMu]
  refine Finset.sum_congr rfl ?_
  intro i hi
  have hi1 : i < hist.length := lt_of_lt_of_le (Finset.mem_range.mp hi) hk
  have hi2 : i < values.length := lt_of_lt_of_le (Finset.mem_range.mp hi) hk'
  rw [getD_zipWith _ _ _ i (by simpa [otsuProbs] using hi1) hi2]
  simp only [otsuProbs]
  rw [getD_map_div hist hist.sum i hi1]

theorem otsuMuT_eq (hist values : List ℚ) (hn : 0 < hist.length)
    (hl : hist.length = values.length) :
    otsuMuT hist values = otsuMu hist values (hist.length - 1) := by
  have hlen : (otsuMuList hist values).length = hist.length := by
    rw [otsuMuList_length, hl, min_self]
  have hne : otsuMuList hist values ≠ [] := by
    intro h
    rw [h] at hlen
    simp at hlen
    omega
  rw [otsuMuT, getLastD_eq_getD _ hne, hlen]
  exact otsuMuList_getD hist values _ (by omega) (by omega)

theorem otsuSigmaList_eq (hist values : List ℚ) (hn : 0 < hist.length)
    (hl : hist.length = values.length) :
    otsuSigmaList hist values = (List.range hist.length).map (otsuSigmaB hist values) := by
  have hω : (otsuOmegaList hist).length = hist.length := otsuOmegaList_length hist
  have hμ : (otsuMuList hist values).length = hist.length := by
    rw [otsuMuList_length, hl, min_self]
  apply List.ext_getElem
  · simp [otsuSigmaList, hω, hμ]
  · intro k h1 h2
    have hk : k < hist.length := by
      simpa [otsuSigmaList, hω, hμ] using h1
    have hgd1 : (otsuSigmaList hist values).getD k 0 = (otsuSigmaList hist values)[k] :=
      (List.getD_eq_getElem _ _ h1)
    have hgd2 : (((List.range hist.length).map (otsuSigmaB hist values))).getD k 0
        = ((List.range hist.length).map (otsuSigmaB hist values))[k] :=
      (List.getD_eq_getElem _ _ h2)
    rw [← hgd1, ← hgd2]
    rw [otsuSigmaList, getD_zipWith _ _ _ k (by omega) (by omega)]
    rw [otsuOmegaList_getD hist k hk, otsuMuList_getD hist values k hk (by omega)]
    rw [otsuMuT_eq hist values hn hl]
    have : (((List.range hist.length).map (otsuSigmaB hist values))).getD k 0
        = otsuSigmaB hist values k := by
      rw [List.getD_eq_getElem _ _ h2]
      simp
    rw [this, otsuSigmaB]

/-! ### One-hot histogram lemmas (for the single-occupied-bucket analysis) -/

theorem onehot_weighted_sum (hist : List ℚ) (g : ℕ → ℚ) (j : ℕ)
    (hz : ∀ i, i < hist.length → i ≠ j → hist.getD i 0 = 0) (m : ℕ) :
    (∑ i ∈ Finset.range m, hist.getD i 0 * g i)
      = if j < m then hist.getD j 0 * g j else 0 := by
  have hterm : ∀ i, i ≠ j → hist.getD i 0 * g i = 0 := by
    intro i hne
    by_cases hil : i < hist.length
    · rw [hz i hil hne, zero_mul]
    · rw [List.getD_eq_default _ _ (le_of_not_lt hil), zero_mul]
  by_cases hm : j < m
  · rw [if_pos hm]
    apply Finset.sum_eq_single_of_mem j (Finset.mem_range.mpr hm)
    intro i _ hne
    exact hterm i hne
  · rw [if_neg hm]
    apply Finset.sum_eq_zero
    intro i hi
    have hi' : i < m := Finset.mem_range.mp hi
    exact hterm i (by omega)

theorem onehot_sum_eq (hist : List ℚ) (j : ℕ) (hj : j < hist.length)
    (hz : ∀ i, i < hist.length → i ≠ j → hist.getD i 0 = 0) :
    hist.sum = hist.getD j 0 := by
  have h1 := onehot_weighted_sum hist (fun _ => 1) j hz hist.length
  rw [if_pos hj, mul_one] at h1
  rw [sum_eq_sum_range_getD]
  calc (∑ i ∈ Finset.range hist.length, hist.getD i 0)
      = ∑ i ∈ Finset.range hist.length, hist.getD i 0 * 1 := by simp
    _ = hist.getD j 0 := h1

theorem map_range_getD (g : ℕ → ℚ) (n k : ℕ) (hk : k < n) :
    ((List.range n).map g).getD k 0 = g k := by
  rw [List.getD_eq_getElem _ _ (by simpa using hk)]
  simp

/-! ### Claim C1 -/

/-- **C1**: for every histogram with at least one bucket and positive total
count, `compute_otsu_threshold`'s core returns the bucket-mean value at the
index `argmax_k` of the between-class variance
`σ²_b(k) = (μ_T·ω_k − μ_k)² / (ω_k·(1−ω_k) + 1e-10)` with
`p_i = count_i/Σcount`, `ω_k = Σ_{i≤k} p_i`, `μ_k = Σ_{i≤k} p_i·value_i`,
`μ_T = μ_last` — i.e. the code's cumulative-sum formulation agrees with the
spec's direct `Finset.range` summation formulation. -/
theorem otsu_threshold_matches_spec (h : Histogram)
    (hn : 0 < h.histogram.length)
    (hl : h.histogram.length = h.bucketMeans.length)
    (_hs : 0 < h.histogram.sum) :
    computeOtsuFromHist h = otsuSpecThreshold h.histogram h.bucketMeans := by
  rw [computeOtsuFromHist, otsuSpecThreshold, otsuSigmaList_eq _ _ hn hl]

/-- Witness for C1 at the spec's own scenario histogram
`[(−25,5),(−20,50),(−10,50),(0,5)]`. -/
theorem otsu_threshold_matches_spec_witness :
    computeOtsuFromHist ⟨[5, 50, 50, 5], [-25, -20, -10, 0]⟩ =
      otsuSpecThreshold [5, 50, 50, 5] [-25, -20, -10, 0] :=
  otsu_threshold_matches_spec ⟨[5, 50, 50, 5], [-25, -20, -10, 0]⟩
    (by simp) (by simp) (by norm_num)

/-! ### Claim C5 -/

/-- **C5** (counterexample to the claim as stated): on the histogram
`counts = [0, 5]`, `bucketMeans = [0, 10]` all the count mass lies in the
single bucket of mean 10, yet the code returns 0 (the first bucket's mean),
not 10: every between-class-variance score is 0 (the `1e-10` padding keeps
all denominators positive, so no NaN ever arises) and `np.argmax` of an
all-zero array is index 0. -/
theorem otsu_single_bucket_claim_counterexample :
    computeOtsuFromHist ⟨[0, 5], [0, 10]⟩ = 0 ∧
      computeOtsuFromHist ⟨[0, 5], [0, 10]⟩ ≠ 10 := by
  constructor <;>
    norm_num [computeOtsuFromHist, otsuSigmaList, otsuOmegaList, otsuMuList, otsuMuT,
      otsuProbs, otsuEps, cumsum, cumsumFrom, argmaxIdx]

/-- **C5** (amended): for every histogram whose entire count mass lies in a
single bucket `j`, all between-class-variance scores equal 0 (no NaN or
infinity arises, because the `1e-10`-padded denominators are positive, so the
NaN-replacement of lines 54-55 has nothing to do), and the argmax
deterministically picks the boundary bucket at index 0: the result is the
FIRST bucket's mean, which is the occupied bucket's mean only when `j = 0`. -/
theorem otsu_single_bucket_first_bucket (h : Histogram) (j : ℕ)
    (hl : h.histogram.length = h.bucketMeans.length)
    (hj : j < h.histogram.length)
    (hz : ∀ i, i < h.histogram.length → i ≠ j → h.histogram.getD i 0 = 0)
    (hp : 0 < h.histogram.getD j 0) :
    computeOtsuFromHist h = h.bucketMeans.getD 0 0 := by
  set hist := h.histogram with hhist
  set values := h.bucketMeans with hvals
  have hn : 0 < hist.length := by omega
  have hsum : hist.sum = hist.getD j 0 := onehot_sum_eq hist j hj hz
  have hne : hist.sum ≠ 0 := by rw [hsum]; exact ne_of_gt hp
  have homega : ∀ k, otsuOmega hist k = if j ≤ k then 1 else 0 := by
    intro k
    rw [otsuOmega, ← Finset.sum_div]
    have h1 := onehot_weighted_sum hist (fun _ => 1) j hz (k + 1)
    simp only [mul_one] at h1
    rw [h1]
    by_cases hk : j ≤ k
    · rw [if_pos (by omega), if_pos hk, ← hsum, div_self hne]
    · rw [if_neg (by omega), if_neg hk, zero_div]
  have hmu : ∀ k, otsuMu hist values k = if j ≤ k then values.getD j 0 else 0 := by
    intro k
    rw [otsuMu]
    have hterm : ∀ i ∈ Finset.range (k + 1),
        (hist.getD i 0 / hist.sum) * values.getD i 0
          = hist.getD i 0 * values.getD i 0 / hist.sum := by
      intro i _
      rw [div_mul_eq_mul_div]
    rw [Finset.sum_congr rfl hterm, ← Finset.sum_div,
      onehot_weighted_sum hist (fun i => values.getD i 0) j hz (k + 1)]
    by_cases hk : j ≤ k
    · rw [if_pos (by omega), if_pos hk, ← hsum]
      rw [hsum, mul_comm, mul_div_assoc, div_self (by rw [← hsum]; exact hne), mul_one]
    · rw [if_neg (by omega), if_neg hk, zero_div]
  have hsig : ∀ k, otsuSigmaB hist values k = 0 := by
    intro k
    rw [otsuSigmaB, hmu, hmu, homega]
    have hjlast : j ≤ hist.length - 1 := by omega
    rw [if_pos hjlast]
    by_cases hk : j ≤ k
    · rw [if_pos hk, if_pos hk]
      simp [zero_div]
    · rw [if_neg hk, if_neg hk]
      simp [zero_div]
  rw [computeOtsuFromHist, ← hhist, ← hvals, otsuSigmaList_eq hist values hn hl]
  have hzero : argmaxIdx ((List.range hist.length).map (otsuSigmaB hist values)) = 0 := by
    apply argmaxIdx_eq_zero
    intro i hi
    have hlen : ((List.range hist.length).map (otsuSigmaB hist values)).length
        = hist.length := by simp
    rw [hlen] at hi
    rw [map_range_getD _ _ _ hi, map_range_getD _ _ _ hn, hsig, hsig]
  rw [hzero]

/-- Witness for the amended C5: all the mass of `[7, 0, 0]` is in bucket 0,
and the returned threshold is that (first) bucket's mean 3. -/
theorem otsu_single_bucket_first_bucket_witness :
    computeOtsuFromHist ⟨[7, 0, 0], [3, 4, 5]⟩ = 3 := by
  have h := otsu_single_bucket_first_bucket ⟨[7, 0, 0], [3, 4, 5]⟩ 0
    (by simp) (by simp) (by decide) (by norm_num)
  simpa using h

/-! ### The raster model

An Earth Engine image: named bands, a footprint (the pixel set of
`image.geometry()` that region reductions iterate over) and a per-band,
per-pixel value, `none` meaning the pixel is masked for that band.  Mask
values are 0/1-clamped by the backend, so "valid with positive value" is
the semantics of using an image as a mask (`updateMask`, `selfMask`). -/

/-- A pixel location (row/column grid coordinates). -/
abbrev Pix := ℤ × ℤ

/-- Shallow embedding of `ee.Image`. -/
structure EEImage where
  bands : List String
  footprint : List Pix
  val : String → Pix → Option ℚ

/-- Membership test of a band name (`band in image.bandNames().getInfo()`). -/
def EEImage.hasBand (img : EEImage) (b : String) : Bool := img.bands.contains b

/-- Position of a band name in a band list (first match). -/
def bandIdx (bs : List String) (b : String) : Option ℕ :=
  match bs with
  | [] => none
  | x :: xs => if x = b then some 0 else (bandIdx xs b).map (fun i => i + 1)

/-- `image.select(b)`: the single-band image of band `b`. -/
def EEImage.select (img : EEImage) (b : String) : EEImage where
  bands := [b]
  footprint := img.footprint
  val := fun bd p => if bd = b then img.val b p else none

/-- `image.lt(c)`: 1 where the band value is `< c`, 0 otherwise; masked
pixels stay masked. -/
def EEImage.ltConst (img : EEImage) (c : ℚ) : EEImage where
  bands := img.bands
  footprint := img.footprint
  val := fun bd p =>
    match img.val bd p with
    | some v => some (if v < c then 1 else 0)
    | none => none

/-- `image.gte(c)`: 1 where the band value is `≥ c`, 0 otherwise. -/
def EEImage.gteConst (img : EEImage) (c : ℚ) : EEImage where
  bands := img.bands
  footprint := img.footprint
  val := fun bd p =>
    match img.val bd p with
    | some v => some (if c ≤ v then 1 else 0)
    | none => none

/-- `image.Not()`: 1 where the value is 0, otherwise 0. -/
def EEImage.notI (img : EEImage) : EEImage where
  bands := img.bands
  footprint := img.footprint
  val := fun bd p =>
    match img.val bd p with
    | some v => some (if v = 0 then 1 else 0)
    | none => none

/-- Band-wise binary combination with Earth Engine's positional band
matching: the result keeps the first image's band names, pairing the i-th
band of `a` with the i-th band of `b`; a pixel is valid only where both
operands are valid. -/
def EEImage.zip2 (a b : EEImage) (f : ℚ → ℚ → ℚ) : EEImage where
  bands := a.bands
  footprint := a.footprint
  val := fun bd p =>
    match bandIdx a.bands bd with
    | none => none
    | some i =>
      match b.bands[i]? with
      | none => none
      | some bb =>
        match a.val bd p, b.val bb p with
        | some x, some y => some (f x y)
        | _, _ => none

/-- `a.subtract(b)`. -/
def EEImage.subtractI (a b : EEImage) : EEImage := a.zip2 b (fun x y => x - y)

/-- `a.And(b)`: 1 where both operands are non-zero, 0 otherwise. -/
def EEImage.andI (a b : EEImage) : EEImage :=
  a.zip2 b (fun x y => if x ≠ 0 ∧ y ≠ 0 then 1 else 0)

/-- `image.selfMask()`: keeps a pixel valid only where its own value is
positive (zero or negative mask values mask the pixel out). -/
def EEImage.selfMask (img : EEImage) : EEImage where
  bands := img.bands
  footprint := img.footprint
  val := fun bd p =>
    match img.val bd p with
    | some v => if 0 < v then some v else none
    | none => none

/-- `image.rename(n)` for the single-band images of this pipeline. -/
def EEImage.rename1 (img : EEImage) (n : String) : EEImage where
  bands := [n]
  footprint := img.footprint
  val := fun bd p => if bd = n then img.val (img.bands.headD "") p else none

/-- `image.updateMask(m)` with a boolean-valued mask function (used for the
band-wise AND of two validity masks). -/
def EEImage.updateMaskWith (img : EEImage) (m : String → Pix → Bool) : EEImage where
  bands := img.bands
  footprint := img.footprint
  val := fun bd p => if m bd p then img.val bd p else none

/-- `image.updateMask(maskImage)`: a pixel stays valid only where the mask
image's (first) band is valid with positive value. -/
def EEImage.updateMaskImg (img m : EEImage) : EEImage where
  bands := img.bands
  footprint := img.footprint
  val := fun bd p =>
    match m.val (m.bands.headD "") p with
    | some v => if 0 < v then img.val bd p else none
    | none => none

/-- `pre.mask().And(post.mask())`: the band-wise logical AND of two images'
validity masks. -/
def commonMask (a b : EEImage) : String → Pix → Bool :=
  fun bd p => (a.val bd p).isSome && (b.val bd p).isSome

/-- The derived `VV_minus_VH` band added by
`image.addBands(image.select('VV').subtract(image.select('VH')).rename('VV_minus_VH'))`. -/
def EEImage.addVVminusVH (img : EEImage) : EEImage where
  bands := img.bands ++ ["VV_minus_VH"]
  footprint := img.footprint
  val := fun bd p =>
    if bd = "VV_minus_VH" then
      match img.val "VV" p, img.val "VH" p with
      | some a, some b => some (a - b)
      | _, _ => none
    else img.val bd p

/-! ### `utils.py` -/

/-- The unmasked-pixel count of an image's first band over a region
(`reduceRegion(ee.Reducer.count(), region)`, then
`.get(image.bandNames().get(0))`, lines 114-135 of `utils.py`). -/
def countUnmasked (img : EEImage) (region : List Pix) : ℕ :=
  (region.filter (fun p => (img.val (img.bands.headD "") p).isSome)).length

/-- `check_same_pixel_count` (utils.py lines 95-141): true iff the two
images have the same number of unmasked pixels over `region`. -/
def check_same_pixel_count (a b : EEImage) (region : List Pix) : Bool :=
  countUnmasked a region == countUnmasked b region

/-- `calculate_area` (utils.py lines 17-58):
`ee.Image.pixelArea().updateMask(image)` summed over `image.geometry()`
and divided by `1e6`.  `pixelArea` is the backend's per-pixel ground area
in m² and enters as a parameter.  Using the image as a mask keeps exactly
the pixels that are valid with positive value; a missing reduction result
defaults to 0 (`stats.get(..., 0)`), which the empty sum models. -/
def calculate_area (pixelArea : Pix → ℚ) (image : EEImage) : ℚ :=
  ((image.footprint.filter (fun p =>
      match image.val (image.bands.headD "") p with
      | some v => decide (0 < v)
      | none => false)).map pixelArea).sum / 1000000

/-! ### `flood_detection.py` -/

/-- `compute_otsu_threshold` (lines 15-71): extract the histogram of
`band_name` over the Otsu AOI (the backend reduction, with its region and
scale, enters as the parameter `histOf`); if the backend returns no data
(`None`), warn and return the sentinel default threshold −20.0 instead of
raising; otherwise run the Otsu arithmetic of lines 42-58. -/
def compute_otsu_threshold (histOf : EEImage → String → Option Histogram)
    (image : EEImage) (band_name : String) : ℚ :=
  match histOf image band_name with
  | none => -20
  | some h => computeOtsuFromHist h

/-- Lines 110-125 of `detect_flood_extent` (identically lines 186-204 of
`detect_flood_extent_s2_ndwi`): compare unmasked-pixel counts over the
pre-event image's geometry; on mismatch restrict both images to the AND
of their validity masks, otherwise keep the originals. -/
def reconcilePair (a b : EEImage) : EEImage × EEImage :=
  if check_same_pixel_count a b a.footprint then (a, b)
  else (a.updateMaskWith (commonMask a b), b.updateMaskWith (commonMask a b))

/-- Lines 150-168 of `detect_flood_extent`: per-image Otsu thresholds,
water masks `band < threshold`, and the flood extent
`water_post.subtract(water_pre).selfMask().rename('flood_extent_sar')`.
Returns the Python function's result triple. -/
def detectFloodCore (histOf : EEImage → String → Option Histogram)
    (preP postP : EEImage) (band : String) : EEImage × EEImage × EEImage :=
  let threshold_pre := compute_otsu_threshold histOf preP band
  let threshold_post := compute_otsu_threshold histOf postP band
  let water_pre := (preP.select band).ltConst threshold_pre
  let water_post := (postP.select band).ltConst threshold_post
  (water_pre, water_post,
    ((water_post.subtractI water_pre).selfMask).rename1 "flood_extent_sar")

/-- `detect_flood_extent` (lines 73-168).  `.error` models a raised
`ValueError`; note the band checks of lines 127-147 run after mask
reconciliation and before any thresholding. -/
def detect_flood_extent (histOf : EEImage → String → Option Histogram)
    (pre_event_sar post_event_sar : EEImage) (sar_threshold_band : String := "VH") :
    Except String (EEImage × EEImage × EEImage) :=
  let rp := reconcilePair pre_event_sar post_event_sar
  if sar_threshold_band = "VV_minus_VH" then
    if !(rp.1.hasBand "VV" && rp.1.hasBand "VH") then
      .error "Pre-event SAR image must contain VV and VH bands to create VV_minus_VH."
    else if !(rp.2.hasBand "VV" && rp.2.hasBand "VH") then
      .error "Post-event SAR image must contain VV and VH bands to create VV_minus_VH."
    else
      .ok (detectFloodCore histOf rp.1.addVVminusVH rp.2.addVVminusVH sar_threshold_band)
  else if !rp.1.hasBand sar_threshold_band then
    .error "Selected SAR threshold band not found in pre-event SAR image."
  else if !rp.2.hasBand sar_threshold_band then
    .error "Selected SAR threshold band not found in post-event SAR image."
  else
    .ok (detectFloodCore histOf rp.1 rp.2 sar_threshold_band)

/-- `detect_flood_extent_s2_ndwi` (lines 170-213): `None` inputs raise
(`.error`); otherwise reconcile the two binary NDWI masks and return
`post.subtract(pre).selfMask().rename('flood_extent_ndwi')`. -/
def detect_flood_extent_s2_ndwi (pre post : Option EEImage) : Except String EEImage :=
  match pre, post with
  | some pre_mask, some post_mask =>
    let rp := reconcilePair pre_mask post_mask
    .ok (((rp.2.subtractI rp.1).selfMask).rename1 "flood_extent_ndwi")
  | _, _ => .error "Both pre-event and post-event NDWI masks are required for S2 flood detection."

/-- `refine_flood_extent_with_topology` (lines 215-252): keep pixels whose
`connectedPixelCount` is ≥ `min_connected_pixels` and whose terrain slope
is `< max_slope_percent`, then rename to `effective_flood_extent`.  The
backend's `connectedPixelCount` operator and the HydroSHEDS slope raster
(already clipped to the AOI) enter as parameters `cpc` and `slope`. -/
def refine_flood_extent_with_topology (cpc : EEImage → EEImage) (slope : EEImage)
    (flooded_area_image : EEImage)
    (min_connected_pixels : ℚ := 8) (max_slope_percent : ℚ := 5) : EEImage :=
  let connections := cpc flooded_area_image
  let flooded_area_conn :=
    flooded_area_image.updateMaskImg (connections.gteConst min_connected_pixels)
  let flooded_area_conn_topo :=
    flooded_area_conn.updateMaskImg (slope.ltConst max_slope_percent)
  flooded_area_conn_topo.rename1 "effective_flood_extent"

/-! ### Observation helpers and generic predicates -/

/-- The pixel value, at band `bd` and pixel `p`, of the flood-extent raster
(the third component) returned by `detect_flood_extent`; `none` when the
call raised. -/
def sarFloodVal (histOf : EEImage → String → Option Histogram)
    (pre post : EEImage) (band bd : String) (p : Pix) : Option ℚ :=
  match detect_flood_extent histOf pre post band with
  | .ok r => r.2.2.val bd p
  | .error _ => none

/-- The pixel value of the flood-extent raster returned by
`detect_flood_extent_s2_ndwi`; `none` when the call raised. -/
def s2FloodVal (pre post : EEImage) (bd : String) (p : Pix) : Option ℚ :=
  match detect_flood_extent_s2_ndwi (some pre) (some post) with
  | .ok r => r.val bd p
  | .error _ => none

/-- The band-name lists of the rasters in a `detect_flood_extent` result
(empty when the call raised). -/
def detectResultBands (r : Except String (EEImage × EEImage × EEImage)) :
    List (List String) :=
  match r with
  | .ok t => [t.1.bands, t.2.1.bands, t.2.2.bands]
  | .error _ => []

/-- A strictly binary raster: every valid pixel value is 0 or 1. -/
def IsBinary (img : EEImage) : Prop :=
  ∀ b p v, img.val b p = some v → v = 0 ∨ v = 1

/-! ### Concrete sample inputs for witnesses -/

/-- A backend that always returns the one-bucket histogram `([1], [-20])`. -/
def histConst : EEImage → String → Option Histogram := fun _ _ => some ⟨[1], [-20]⟩

/-- A backend whose histogram reduction finds no data in the Otsu AOI. -/
def histAbsent : EEImage → String → Option Histogram := fun _ _ => none

/-- A one-pixel pre-event SAR image: `VH` backscatter −15 dB (land). -/
def preSample : EEImage := ⟨["VH"], [((0 : ℤ), (0 : ℤ))], fun _ _ => some (-15)⟩

/-- A one-pixel post-event SAR image: `VH` backscatter −25 dB (water). -/
def postSample : EEImage := ⟨["VH"], [((0 : ℤ), (0 : ℤ))], fun _ _ => some (-25)⟩

/-- A fully masked post-event image over the same footprint. -/
def postAllMasked : EEImage := ⟨["VH"], [((0 : ℤ), (0 : ℤ))], fun _ _ => none⟩

/-- An all-land binary water mask (value 0 everywhere). -/
def maskAllZero : EEImage := ⟨["w"], [((0 : ℤ), (0 : ℤ))], fun _ _ => some 0⟩

/-- An all-water binary water mask (value 1 everywhere). -/
def maskAllOne : EEImage := ⟨["w"], [((0 : ℤ), (0 : ℤ))], fun _ _ => some 1⟩

/-! ### Claim C4 -/

/-- **C4**: whenever histogram extraction over the Otsu reference region
yields no data (`None`), `compute_otsu_threshold` returns the documented
sentinel default threshold −20.0; the embedded function is total, so no
exception can abort the pipeline on this path. -/
theorem otsu_default_on_absent_histogram
    (histOf : EEImage → String → Option Histogram) (image : EEImage) (band : String)
    (h : histOf image band = none) :
    compute_otsu_threshold histOf image band = -20 := by
  rw [compute_otsu_threshold, h]

/-- Witness for C4: a backend with no histogram data yields −20. -/
theorem otsu_default_on_absent_histogram_witness :
    compute_otsu_threshold histAbsent preSample "VH" = -20 :=
  otsu_default_on_absent_histogram histAbsent preSample "VH" rfl

/-! ### Claim C2 -/

theorem reconcilePair_fst_bands (a b : EEImage) : (reconcilePair a b).1.bands = a.bands := by
  rw [reconcilePair]
  split <;> rfl

theorem reconcilePair_snd_bands (a b : EEImage) : (reconcilePair a b).2.bands = b.bands := by
  rw [reconcilePair]
  split <;> rfl

theorem reconcilePair_fst_hasBand (a b : EEImage) (x : String) :
    (reconcilePair a b).1.hasBand x = a.hasBand x := by
  rw [EEImage.hasBand, EEImage.hasBand, reconcilePair_fst_bands]

theorem reconcilePair_snd_hasBand (a b : EEImage) (x : String) :
    (reconcilePair a b).2.hasBand x = b.hasBand x := by
  rw [EEImage.hasBand, EEImage.hasBand, reconcilePair_snd_bands]

/-- **C2**: a pixel-count mismatch is recovered, never raised: (1) when the
unmasked-pixel counts over the comparison region (the pre image's geometry)
differ, both images are restricted to the AND of their validity masks;
(2) when they agree, the originals are used unchanged; (3) the SAR change
detection returns a result (never `.error`) whenever its band precondition
holds, regardless of pixel counts; (4) the NDWI change detection returns a
result for any two present masks, regardless of pixel counts. -/
theorem mismatch_recovered_not_raised :
    (∀ a b : EEImage,
      countUnmasked a a.footprint ≠ countUnmasked b a.footprint →
      reconcilePair a b =
        (a.updateMaskWith (commonMask a b), b.updateMaskWith (commonMask a b))) ∧
    (∀ a b : EEImage,
      countUnmasked a a.footprint = countUnmasked b a.footprint →
      reconcilePair a b = (a, b)) ∧
    (∀ (histOf : EEImage → String → Option Histogram) (pre post : EEImage) (band : String),
      (band = "VV_minus_VH" →
        pre.hasBand "VV" ∧ pre.hasBand "VH" ∧ post.hasBand "VV" ∧ post.hasBand "VH") →
      (band ≠ "VV_minus_VH" → pre.hasBand band ∧ post.hasBand band) →
      (detect_flood_extent histOf pre post band).isOk = true) ∧
    (∀ pre post : EEImage,
      (detect_flood_extent_s2_ndwi (some pre) (some post)).isOk = true) := by
  refine ⟨?_, ?_, ?_, ?_⟩
  · intro a b h
    have hc : ¬ (check_same_pixel_count a b a.footprint = true) := by
      simp only [check_same_pixel_count, beq_iff_eq]
      exact h
    rw [reconcilePair, if_neg hc]
  · intro a b h
    have hc : check_same_pixel_count a b a.footprint = true := by
      simp only [check_same_pixel_count, beq_iff_eq]
      exact h
    rw [reconcilePair, if_pos hc]
  · intro histOf pre post band h1 h2
    by_cases hb : band = "VV_minus_VH"
    · obtain ⟨hv1, hv2, hv3, hv4⟩ := h1 hb
      subst hb
      simp [detect_flood_extent, reconcilePair_fst_hasBand, reconcilePair_snd_hasBand,
        hv1, hv2, hv3, hv4, Except.isOk, Except.toBool]
    · obtain ⟨hp1, hp2⟩ := h2 hb
      simp [detect_flood_extent, reconcilePair_fst_hasBand, reconcilePair_snd_hasBand,
        hb, hp1, hp2, Except.isOk, Except.toBool]
  · intro pre post
    rfl

/-- Witness for C2: a one-pixel pair with counts 1 ≠ 0 is reconciled to the
common mask; an equal-count pair passes through unchanged; both detectors
return `.ok` on the consistent pair. -/
theorem mismatch_recovered_not_raised_witness :
    reconcilePair preSample postAllMasked =
      (preSample.updateMaskWith (commonMask preSample postAllMasked),
        postAllMasked.updateMaskWith (commonMask preSample postAllMasked)) ∧
    reconcilePair preSample postSample = (preSample, postSample) ∧
    (detect_flood_extent histConst preSample postSample "VH").isOk = true ∧
    (detect_flood_extent_s2_ndwi (some maskAllZero) (some maskAllOne)).isOk = true :=
  ⟨mismatch_recovered_not_raised.1 preSample postAllMasked (by decide),
    mismatch_recovered_not_raised.2.1 preSample postSample (by decide),
    mismatch_recovered_not_raised.2.2.1 histConst preSample postSample "VH"
      (fun h => absurd h (by decide)) (fun _ => ⟨by decide, by decide⟩),
    mismatch_recovered_not_raised.2.2.2 maskAllZero maskAllOne⟩

/-! ### Claim C9 -/

/-- **C9**: `detect_flood_extent` raises `ValueError` (modelled `.error`,
returned before any thresholding takes place) exactly when its band
precondition fails: for `sar_threshold_band = 'VV_minus_VH'` when either
input lacks `VV` or `VH`, and for any other selected band when that band
is absent from either input. -/
theorem detect_band_precondition_error
    (histOf : EEImage → String → Option Histogram) (pre post : EEImage) (band : String)
    (h : (band = "VV_minus_VH" ∧
          ¬(pre.hasBand "VV" ∧ pre.hasBand "VH" ∧ post.hasBand "VV" ∧ post.hasBand "VH")) ∨
         (band ≠ "VV_minus_VH" ∧
          (pre.hasBand band = false ∨ post.hasBand band = false))) :
    (detect_flood_extent histOf pre post band).isOk = false := by
  rcases h with ⟨hb, hnb⟩ | ⟨hb, hor⟩
  · subst hb
    cases h1 : pre.hasBand "VV" with
    | false =>
      simp [detect_flood_extent, reconcilePair_fst_hasBand, h1,
        Except.isOk, Except.toBool]
    | true =>
      cases h2 : pre.hasBand "VH" with
      | false =>
        simp [detect_flood_extent, reconcilePair_fst_hasBand, h1, h2,
          Except.isOk, Except.toBool]
      | true =>
        cases h3 : post.hasBand "VV" with
        | false =>
          simp [detect_flood_extent, reconcilePair_fst_hasBand, reconcilePair_snd_hasBand,
            h1, h2, h3, Except.isOk, Except.toBool]
        | true =>
          cases h4 : post.hasBand "VH" with
          | false =>
            simp [detect_flood_extent, reconcilePair_fst_hasBand, reconcilePair_snd_hasBand,
              h1, h2, h3, h4, Except.isOk, Except.toBool]
          | true => exact absurd ⟨h1, h2, h3, h4⟩ hnb
  · rcases hor with hp | hp
    · cases h2 : post.hasBand band <;>
        simp [detect_flood_extent, reconcilePair_fst_hasBand, reconcilePair_snd_hasBand,
          hb, hp, h2, Except.isOk, Except.toBool]
    · cases h1 : pre.hasBand band <;>
        simp [detect_flood_extent, reconcilePair_fst_hasBand, reconcilePair_snd_hasBand,
          hb, hp, h1, Except.isOk, Except.toBool]

/-- Witness for C9: selecting band `VV` when both one-pixel images carry
only `VH` makes the call fail. -/
theorem detect_band_precondition_error_witness :
    (detect_flood_extent histConst preSample postSample "VV").isOk = false :=
  detect_band_precondition_error histConst preSample postSample "VV"
    (Or.inr ⟨by decide, Or.inl (by decide)⟩)

/-! ### Claim C3 -/

/-- **C3** (evidence that the claim describes the intent, not the code):
at a concrete valid one-pixel input, `detect_flood_extent` returns a
TRIPLE of rasters `(water_pre, water_post, flood_extent)` — the two water
masks still carry the `VH` band, only the third component is the
`flood_extent_sar` raster.  The function's own test
(`test_flood_mapper.py`, `assert isinstance(flood_map, ee.Image)`) and its
caller (`run_flood_mapping.main`) bind this result to a single variable
and use it as one flood-extent `BinaryMask`, which a 3-tuple is not. -/
theorem detect_returns_triple_not_single_mask :
    detectResultBands (detect_flood_extent histConst preSample postSample "VH") =
      [["VH"], ["VH"], ["flood_extent_sar"]] := rfl

/-! ### Claim C6 -/

/-- The logical formulation observed at lines 164/208 (the commented-out
variant of the detectors): `water_post.And(water_pre.Not())`, renamed. -/
def floodByAndNot (water_post water_pre : EEImage) : EEImage :=
  (water_post.andI water_pre.notI).rename1 "flood_extent_sar"

/-- The arithmetic formulation of lines 166/211:
`water_post.subtract(water_pre).selfMask()`, renamed. -/
def floodBySubtractSelfMask (water_post water_pre : EEImage) : EEImage :=
  ((water_post.subtractI water_pre).selfMask).rename1 "flood_extent_sar"

/-- **C6**: for strictly binary single-band water masks defined on the same
valid-pixel set, the logical AND-NOT formulation and the subtract-and-self-
mask formulation classify exactly the same pixels as newly flooded
(flood value 1 at the same pixels). -/
theorem and_not_equiv_subtract_selfmask
    (water_post water_pre : EEImage) (bq bp : String) (p : Pix)
    (hq : water_post.bands = [bq]) (hp : water_pre.bands = [bp])
    (hbin_post : IsBinary water_post) (hbin_pre : IsBinary water_pre)
    (hsame : (water_post.val bq p).isSome = (water_pre.val bp p).isSome) :
    ((floodByAndNot water_post water_pre).val "flood_extent_sar" p = some 1) ↔
      ((floodBySubtractSelfMask water_post water_pre).val "flood_extent_sar" p = some 1) := by
  cases hx : water_post.val bq p with
  | none =>
    cases hy : water_pre.val bp p with
    | none =>
      simp [floodByAndNot, floodBySubtractSelfMask, EEImage.rename1, EEImage.selfMask,
        EEImage.andI, EEImage.notI, EEImage.subtractI, EEImage.zip2, bandIdx, hq, hp, hx, hy]
    | some y => rw [hx, hy] at hsame; simp at hsame
  | some x =>
    cases hy : water_pre.val bp p with
    | none => rw [hx, hy] at hsame; simp at hsame
    | some y =>
      rcases hbin_post bq p x hx with rfl | rfl <;>
        rcases hbin_pre bp p y hy with rfl | rfl <;>
          simp [floodByAndNot, floodBySubtractSelfMask, EEImage.rename1, EEImage.selfMask,
            EEImage.andI, EEImage.notI, EEImage.subtractI, EEImage.zip2, bandIdx,
            hq, hp, hx, hy]

/-- Witness for C6 at a one-pixel all-water post mask and all-land pre mask. -/
theorem and_not_equiv_subtract_selfmask_witness :
    ((floodByAndNot maskAllOne maskAllZero).val "flood_extent_sar" ((0 : ℤ), (0 : ℤ))
        = some 1) ↔
      ((floodBySubtractSelfMask maskAllOne maskAllZero).val "flood_extent_sar"
          ((0 : ℤ), (0 : ℤ)) = some 1) :=
  and_not_equiv_subtract_selfmask maskAllOne maskAllZero "w" "w" ((0 : ℤ), (0 : ℤ))
    rfl rfl
    (fun _ _ _ h => Or.inr (Option.some.inj h).symm)
    (fun _ _ _ h => Or.inl (Option.some.inj h).symm)
    rfl

/-! ### Claim C10 -/

theorem ltConst_binary (img : EEImage) (c : ℚ) : IsBinary (img.ltConst c) := by
  intro b p v h
  simp only [EEImage.ltConst] at h
  cases hw : img.val b p with
  | none => rw [hw] at h; cases h
  | some w =>
    rw [hw] at h
    simp only [Option.some.injEq] at h
    by_cases hlt : w < c
    · rw [if_pos hlt] at h; exact Or.inr h.symm
    · rw [if_neg hlt] at h; exact Or.inl h.symm

theorem updateMaskWith_binary (img : EEImage) (m : String → Pix → Bool)
    (h : IsBinary img) : IsBinary (img.updateMaskWith m) := by
  intro b p v hv
  simp only [EEImage.updateMaskWith] at hv
  by_cases hm : m b p
  · rw [if_pos hm] at hv; exact h b p v hv
  · rw [if_neg hm] at hv; cases hv

theorem reconcilePair_fst_binary (a b : EEImage) (h : IsBinary a) :
    IsBinary (reconcilePair a b).1 := by
  rw [reconcilePair]
  split
  · exact h
  · exact updateMaskWith_binary a _ h

theorem reconcilePair_snd_binary (a b : EEImage) (h : IsBinary b) :
    IsBinary (reconcilePair a b).2 := by
  rw [reconcilePair]
  split
  · exact h
  · exact updateMaskWith_binary b _ h

/-- Core of C10: a `subtract` of two binary rasters followed by `selfMask`
keeps only value-1 pixels. -/
theorem subtract_selfMask_val_one (a b : EEImage)
    (ha : IsBinary a) (hb : IsBinary b) (bd : String) (p : Pix) (v : ℚ)
    (h : ((a.subtractI b).selfMask).val bd p = some v) : v = 1 := by
  simp only [EEImage.selfMask] at h
  cases hw : (a.subtractI b).val bd p with
  | none => rw [hw] at h; cases h
  | some w =>
    rw [hw] at h
    dsimp only at h
    by_cases h0 : 0 < w
    · rw [if_pos h0] at h
      simp only [Option.some.injEq] at h
      subst h
      simp only [EEImage.subtractI, EEImage.zip2] at hw
      cases hidx : bandIdx a.bands bd with
      | none => rw [hidx] at hw; cases hw
      | some i =>
        rw [hidx] at hw
        dsimp only at hw
        cases hbb : b.bands[i]? with
        | none => rw [hbb] at hw; cases hw
        | some bb =>
          rw [hbb] at hw
          dsimp only at hw
          cases hx : a.val bd p with
          | none => rw [hx] at hw; cases hw
          | some x =>
            rw [hx] at hw
            cases hy : b.val bb p with
            | none => rw [hy] at hw; cases hw
            | some y =>
              rw [hy] at hw
              dsimp only at hw
              simp only [Option.some.injEq] at hw
              subst hw
              rcases ha bd p x hx with rfl | rfl <;>
                rcases hb bb p y hy with rfl | rfl <;>
                norm_num at h0 ⊢
    · rw [if_neg h0] at h; cases h

/-- Any successful `detect_flood_extent` call's third component is a
renamed binary-subtract-selfMask raster. -/
theorem detect_ok_third (histOf : EEImage → String → Option Histogram)
    (pre post : EEImage) (band : String) (r : EEImage × EEImage × EEImage)
    (h : detect_flood_extent histOf pre post band = .ok r) :
    ∃ a b : EEImage, IsBinary a ∧ IsBinary b ∧
      r.2.2 = ((a.subtractI b).selfMask).rename1 "flood_extent_sar" := by
  rw [detect_flood_extent] at h
  split at h
  · split at h
    · cases h
    · split at h
      · cases h
      · simp only [Except.ok.injEq] at h
        subst h
        exact ⟨_, _, ltConst_binary _ _, ltConst_binary _ _, rfl⟩
  · split at h
    · cases h
    · split at h
      · cases h
      · simp only [Except.ok.injEq] at h
        subst h
        exact ⟨_, _, ltConst_binary _ _, ltConst_binary _ _, rfl⟩

/-- **C10**: every flood-extent raster produced by `detect_flood_extent`
(always) or by `detect_flood_extent_s2_ndwi` (on the strictly binary NDWI
masks its docstring requires) has value exactly 1 at every unmasked pixel:
zero or negative post-minus-pre differences are removed from the
valid-pixel set by `selfMask`, never kept as unmasked zeros. -/
theorem flood_extent_valid_pixels_are_one :
    (∀ (histOf : EEImage → String → Option Histogram) (pre post : EEImage)
        (band bd : String) (p : Pix) (v : ℚ),
      sarFloodVal histOf pre post band bd p = some v →
      sarFloodVal histOf pre post band bd p = some 1) ∧
    (∀ (pre post : EEImage) (bd : String) (p : Pix) (v : ℚ),
      IsBinary pre → IsBinary post →
      s2FloodVal pre post bd p = some v →
      s2FloodVal pre post bd p = some 1) := by
  constructor
  · intro histOf pre post band bd p v h
    rw [sarFloodVal] at h ⊢
    cases hd : detect_flood_extent histOf pre post band with
    | error e => rw [hd] at h; cases h
    | ok r =>
      rw [hd] at h
      dsimp only at h ⊢
      obtain ⟨a, b, ha, hb, hr⟩ := detect_ok_third histOf pre post band r hd
      rw [hr] at h ⊢
      simp only [EEImage.rename1] at h ⊢
      by_cases hbd : bd = "flood_extent_sar"
      · rw [if_pos hbd] at h ⊢
        rw [h, subtract_selfMask_val_one a b ha hb _ p v h]
      · rw [if_neg hbd] at h; cases h
  · intro pre post bd p v hpre hpost h
    have hrfl : s2FloodVal pre post bd p =
        ((((reconcilePair pre post).2.subtractI (reconcilePair pre post).1).selfMask).rename1
          "flood_extent_ndwi").val bd p := rfl
    rw [hrfl] at h ⊢
    simp only [EEImage.rename1] at h ⊢
    by_cases hbd : bd = "flood_extent_ndwi"
    · rw [if_pos hbd] at h ⊢
      rw [h, subtract_selfMask_val_one _ _ (reconcilePair_snd_binary pre post hpost)
        (reconcilePair_fst_binary pre post hpre) _ p v h]
    · rw [if_neg hbd] at h; cases h

/-- Witness for C10: in the one-pixel scenario (land → water on SAR;
all-land → all-water NDWI masks) the single valid flood pixel has value 1. -/
theorem flood_extent_valid_pixels_are_one_witness :
    sarFloodVal histConst preSample postSample "VH" "flood_extent_sar" ((0 : ℤ), (0 : ℤ))
        = some 1 ∧
      s2FloodVal maskAllZero maskAllOne "flood_extent_ndwi" ((0 : ℤ), (0 : ℤ)) = some 1 :=
  ⟨flood_extent_valid_pixels_are_one.1 histConst preSample postSample "VH"
      "flood_extent_sar" ((0 : ℤ), (0 : ℤ)) 1
      (by simp +decide [sarFloodVal, detect_flood_extent, reconcilePair,
        check_same_pixel_count, countUnmasked, preSample, postSample, histConst,
        EEImage.hasBand, detectFloodCore, compute_otsu_threshold, computeOtsuFromHist,
        otsuSigmaList, otsuOmegaList, otsuMuList, otsuMuT, otsuProbs, otsuEps, cumsum,
        cumsumFrom, argmaxIdx, EEImage.select, EEImage.ltConst, EEImage.subtractI,
        EEImage.zip2, bandIdx, EEImage.selfMask, EEImage.rename1]),
    flood_extent_valid_pixels_are_one.2 maskAllZero maskAllOne "flood_extent_ndwi"
      ((0 : ℤ), (0 : ℤ)) 1
      (fun _ _ _ h => Or.inl (Option.some.inj h).symm)
      (fun _ _ _ h => Or.inr (Option.some.inj h).symm)
      (by simp +decide [s2FloodVal, detect_flood_extent_s2_ndwi, reconcilePair,
        check_same_pixel_count, countUnmasked, maskAllZero, maskAllOne, EEImage.subtractI,
        EEImage.zip2, bandIdx, EEImage.selfMask, EEImage.rename1])⟩

/-! ### Claim C7 -/

/-- A one-pixel flat terrain slope raster (slope 0 everywhere). -/
def slopeZero : EEImage := ⟨["slope"], [((0 : ℤ), (0 : ℤ))], fun _ _ => some 0⟩

/-- A flood mask whose band is already named `effective_flood_extent`. -/
def imgEff : EEImage := ⟨["effective_flood_extent"], [((0 : ℤ), (0 : ℤ))], fun _ _ => some 1⟩

/-- **C7** (counterexample to the band-distinctness part of the claim as
stated): refining a mask whose band is already named
`effective_flood_extent` returns a raster whose band name EQUALS the
input's band name — the fixed output identifier is not distinct from the
input's name for every input. -/
theorem refine_band_distinctness_counterexample :
    (refine_flood_extent_with_topology (fun i => i) slopeZero imgEff 8 5).bands
        = imgEff.bands ∧
      imgEff.bands = ["effective_flood_extent"] :=
  ⟨rfl, rfl⟩

/-- **C7** (amended): `refine_flood_extent_with_topology` (1) defaults to
`min_connected_pixels = 8` and `max_slope = 5`; (2) always returns the
fixed band name `effective_flood_extent`; (3) retains exactly the input's
valid pixels whose backend connected-pixel count is ≥ the minimum and
whose terrain slope is strictly below the maximum (pixel values are kept
unchanged); (4) the output band name is distinct from the input's whenever
the input is not already named `effective_flood_extent` (as with the
pipeline's `flood_extent_sar`/`flood_extent_ndwi` detections). -/
theorem refine_retention_and_band :
    (∀ (cpc : EEImage → EEImage) (slope img : EEImage),
      refine_flood_extent_with_topology cpc slope img =
        refine_flood_extent_with_topology cpc slope img 8 5) ∧
    (∀ (cpc : EEImage → EEImage) (slope img : EEImage) (minc maxs : ℚ),
      (refine_flood_extent_with_topology cpc slope img minc maxs).bands
        = ["effective_flood_extent"]) ∧
    (∀ (cpc : EEImage → EEImage) (slope img : EEImage) (minc maxs : ℚ) (p : Pix) (v : ℚ),
      (refine_flood_extent_with_topology cpc slope img minc maxs).val
          "effective_flood_extent" p = some v ↔
        (img.val (img.bands.headD "") p = some v ∧
          (∃ c, (cpc img).val ((cpc img).bands.headD "") p = some c ∧ minc ≤ c) ∧
          (∃ s, slope.val (slope.bands.headD "") p = some s ∧ s < maxs))) ∧
    (∀ (cpc : EEImage → EEImage) (slope img : EEImage) (minc maxs : ℚ),
      img.bands ≠ ["effective_flood_extent"] →
      (refine_flood_extent_with_topology cpc slope img minc maxs).bands ≠ img.bands) := by
  refine ⟨fun _ _ _ => rfl, fun _ _ _ _ _ => rfl, ?_, fun _ _ _ _ _ h heq => h heq.symm⟩
  intro cpc slope img minc maxs p v
  simp only [refine_flood_extent_with_topology, EEImage.rename1, EEImage.updateMaskImg,
    EEImage.gteConst, EEImage.ltConst, if_pos rfl]
  cases hs : slope.val (slope.bands.headD "") p with
  | none => simp [hs]
  | some s =>
    cases hc : (cpc img).val ((cpc img).bands.headD "") p with
    | none => simp [hs, hc]
    | some c =>
      by_cases hsm : s < maxs
      · by_cases hcm : minc ≤ c
        · simp [hs, hc, hsm, hcm]
        · simp [hs, hc, hsm, hcm]
      · by_cases hcm : minc ≤ c
        · simp [hs, hc, hsm, hcm]
        · simp [hs, hc, hsm, hcm]

/-- Witness for the amended C7 at concrete inputs: the defaults, the fixed
output band, the retention equivalence at a concrete pixel, and the band
distinctness for an input named `flood_extent_sar`-style (here `VH`). -/
theorem refine_retention_and_band_witness :
    (refine_flood_extent_with_topology (fun i => i) slopeZero maskAllOne =
      refine_flood_extent_with_topology (fun i => i) slopeZero maskAllOne 8 5) ∧
    ((refine_flood_extent_with_topology (fun i => i) slopeZero maskAllOne 8 5).bands
      = ["effective_flood_extent"]) ∧
    ((refine_flood_extent_with_topology (fun i => i) slopeZero maskAllOne 8 5).val
        "effective_flood_extent" ((0 : ℤ), (0 : ℤ)) = some 1 ↔
      (maskAllOne.val (maskAllOne.bands.headD "") ((0 : ℤ), (0 : ℤ)) = some 1 ∧
        (∃ c, maskAllOne.val (maskAllOne.bands.headD "") ((0 : ℤ), (0 : ℤ)) = some c ∧
          (8 : ℚ) ≤ c) ∧
        (∃ s, slopeZero.val (slopeZero.bands.headD "") ((0 : ℤ), (0 : ℤ)) = some s ∧
          s < (5 : ℚ)))) ∧
    ((refine_flood_extent_with_topology (fun i => i) slopeZero preSample 8 5).bands
      ≠ preSample.bands) :=
  ⟨refine_retention_and_band.1 (fun i => i) slopeZero maskAllOne,
    refine_retention_and_band.2.1 (fun i => i) slopeZero maskAllOne 8 5,
    refine_retention_and_band.2.2.1 (fun i => i) slopeZero maskAllOne 8 5
      ((0 : ℤ), (0 : ℤ)) 1,
    refine_retention_and_band.2.2.2 (fun i => i) slopeZero preSample 8 5 (by decide)⟩

/-! ### Claim C8 -/

/-- Modelled from the claim's words for comparison: the per-pixel ground
area summed over ALL of the mask's unmasked pixels (ignoring the pixel
values), divided by 1e6. -/
def areaOverUnmasked (pixelArea : Pix → ℚ) (img : EEImage) : ℚ :=
  ((img.footprint.filter (fun p =>
      (img.val (img.bands.headD "") p).isSome)).map pixelArea).sum / 1000000

/-- The spec's mask-membership weighting: the per-pixel ground area summed
over the mask's unmasked pixels of value 1, divided by 1e6. -/
def areaOverOnes (pixelArea : Pix → ℚ) (img : EEImage) : ℚ :=
  ((img.footprint.filter (fun p =>
      decide (img.val (img.bands.headD "") p = some 1))).map pixelArea).sum / 1000000

/-- **C8** (counterexample to the claim as stated): a binary mask with one
UNMASKED pixel of value 0 has `calculate_area` 0 — using the mask as an
`updateMask` argument drops unmasked zero-valued pixels — while the sum of
ground area over its unmasked pixels is 2 km². -/
theorem calculate_area_unmasked_sum_counterexample :
    calculate_area (fun _ => 2000000) maskAllZero = 0 ∧
      areaOverUnmasked (fun _ => 2000000) maskAllZero = 2 ∧
      calculate_area (fun _ => 2000000) maskAllZero ≠
        areaOverUnmasked (fun _ => 2000000) maskAllZero := by
  refine ⟨?_, ?_, ?_⟩ <;>
    norm_num [calculate_area, areaOverUnmasked, maskAllZero]

/-- **C8** (amended): for every binary mask, `calculate_area` returns the
sum of per-pixel ground area over the mask's unmasked pixels OF VALUE 1
within the mask's own footprint (mask-membership weighting — unmasked
zero-valued pixels contribute nothing), divided by 1e6; and for a fully
masked input the reduction is empty and the result is exactly 0, not an
error. -/
theorem calculate_area_binary_and_empty :
    (∀ (pixelArea : Pix → ℚ) (img : EEImage), IsBinary img →
      calculate_area pixelArea img = areaOverOnes pixelArea img) ∧
    (∀ (pixelArea : Pix → ℚ) (img : EEImage),
      (∀ p, img.val (img.bands.headD "") p = none) →
      calculate_area pixelArea img = 0) := by
  constructor
  · intro pixelArea img hbin
    rw [calculate_area, areaOverOnes]
    congr 1
    congr 1
    congr 1
    apply List.filter_congr
    intro p _
    cases hv : img.val (img.bands.headD "") p with
    | none => simp [hv]
    | some v =>
      rcases hbin _ p v hv with rfl | rfl
      · simp [hv]
      · simp [hv]
  · intro pixelArea img hmask
    rw [calculate_area]
    have hfil : img.footprint.filter (fun p =>
        match img.val (img.bands.headD "") p with
        | some v => decide (0 < v)
        | none => false) = [] := by
      apply List.filter_eq_nil_iff.mpr
      intro p _
      rw [hmask p]
      simp
    rw [hfil]
    simp

/-- Witness for the amended C8: on a one-pixel all-ones mask the code's
area equals the membership-weighted area, and on a fully masked raster the
area is exactly 0. -/
theorem calculate_area_binary_and_empty_witness :
    calculate_area (fun _ => 100) maskAllOne = areaOverOnes (fun _ => 100) maskAllOne ∧
      calculate_area (fun _ => 100) postAllMasked = 0 :=
  ⟨calculate_area_binary_and_empty.1 (fun _ => 100) maskAllOne
      (fun _ _ _ h => Or.inr (Option.some.inj h).symm),
    calculate_area_binary_and_empty.2 (fun _ => 100) postAllMasked (fun _ => rfl)⟩

end FloodMapper
